import Mathlib

/-!
Shallow embedding of the core of `boomi_scheduled_jobs.py`: the cron field
parser, the occurrence expander, the UTC→MST converter, the 12-hour
formatter, the recurring/scheduled classifier, the recurring-pattern
describer, its frequency scoring, and the enabled-flag normalizer.
Python exceptions are modelled with `Option`; Python unbounded ints with
`Int`; Python strings with `String` operated on through their character
lists via the helper functions below.
-/

/-- Models Python `str.split(sep)` for a single-character separator:
always returns a non-empty list, `"".split(c) = [""]`. -/
def splitOnChar (c : Char) : List Char → List (List Char)
  | [] => [[]]
  | x :: xs =>
    if x = c then [] :: splitOnChar c xs
    else
      match splitOnChar c xs with
      | [] => [[x]]
      | y :: ys => (x :: y) :: ys

/-- Whitespace characters stripped by Python `int()`. -/
def isPySpace (c : Char) : Bool :=
  c == ' ' || c == '\t' || c == '\n' || c == '\r'

/-- Strip leading and trailing whitespace from a character list. -/
def stripChars (l : List Char) : List Char :=
  ((l.dropWhile isPySpace).reverse.dropWhile isPySpace).reverse

/-- Accumulate the value of a decimal digit string; `none` on a non-digit. -/
def digitsValAux : Nat → List Char → Option Nat
  | acc, [] => some acc
  | acc, c :: rest =>
    if c.isDigit then digitsValAux (acc * 10 + (c.toNat - 48)) rest else none

/-- Value of a non-empty all-digit string, else `none`. -/
def digitsVal : List Char → Option Nat
  | [] => none
  | c :: rest => digitsValAux 0 (c :: rest)

/-- Models Python `int(s)` on decimal text: optional surrounding
whitespace, an optional sign, then at least one digit; raises
(= `none`) otherwise. -/
def parseIntChars (l0 : List Char) : Option Int :=
  match stripChars l0 with
  | '-' :: rest => (digitsVal rest).map (fun n => -(n : Int))
  | '+' :: rest => (digitsVal rest).map (fun n => (n : Int))
  | l => (digitsVal l).map (fun n => (n : Int))

/-- Models Python `range(start, stop, step)` materialized to a list;
`none` models the `ValueError` raised when `step = 0`. -/
def pythonRange (start stop step : Int) : Option (List Int) :=
  if step = 0 then none
  else if 0 < step then
    if start < stop then
      some ((List.range (((stop - start - 1) / step).toNat + 1)).map
        (fun i => start + step * (i : Int)))
    else some []
  else
    if stop < start then
      some ((List.range (((start - stop - 1) / (-step)).toNat + 1)).map
        (fun i => start + step * (i : Int)))
    else some []

/-- Models Python substring test `needle in hay`. -/
def containsSub (needle : List Char) : List Char → Bool
  | [] => needle.isEmpty
  | c :: t => needle.isPrefixOf (c :: t) || containsSub needle t

/-- Build a string back from a character list. -/
def strOfChars (l : List Char) : String := String.mk l

/-- Models `parse_cron_time_range(time_str)`: parse `'*'`, range-with-step,
plain range, comma list or bare integer into the list of integers the text
denotes; `none` models an uncaught exception. The `'*'` branch reproduces
the source's `list(range(24)) if 'hour' in str(time_str) else list(range(60))`,
whose condition tests the field text itself. -/
def parse_cron_time_range (time_str : String) : Option (List Int) :=
  let chars := time_str.data
  if time_str = "*" then
    some (if containsSub "hour".data chars
      then (List.range 24).map (fun n => (n : Int))
      else (List.range 60).map (fun n => (n : Int)))
  else if chars.contains '/' then
    match splitOnChar '/' chars with
    | [base, stepStr] =>
      match parseIntChars stepStr with
      | none => none
      | some step =>
        if base.contains '-' then
          match splitOnChar '-' base with
          | [s1, s2] =>
            match parseIntChars s1, parseIntChars s2 with
            | some a, some b => pythonRange a (b + 1) step
            | _, _ => none
          | _ => none
        else (parseIntChars base).map (fun v => [v])
    | _ => none
  else if chars.contains '-' then
    match splitOnChar '-' chars with
    | [s1, s2] =>
      match parseIntChars s1, parseIntChars s2 with
      | some a, some b => pythonRange a (b + 1) 1
      | _, _ => none
    | _ => none
  else if chars.contains ',' then
    (splitOnChar ',' chars).mapM parseIntChars
  else (parseIntChars chars).map (fun v => [v])

/-- The `enabled` attribute of a job record arrives as a boolean or as text. -/
inductive EnabledVal where
  | boolVal (b : Bool)
  | strVal (s : String)
deriving DecidableEq, Repr

/-- A job record, restricted to the attributes the core functions read.
`none` models an absent key (so `job.get(k, d)` is `Option.getD`). -/
structure Job where
  hours : Option String := none
  minutes : Option String := none
  enabled : Option EnabledVal := none
deriving DecidableEq, Repr

/-- Models `parse_job_schedule(job)`: expand `hours` × `minutes` to all
(hour, minute) pairs; the `except` clause becomes the `[(0, 0)]` fallback
whenever either field fails to parse. -/
def parse_job_schedule (job : Job) : List (Int × Int) :=
  let hours_str := job.hours.getD "*"
  let minutes_str := job.minutes.getD "0"
  match parse_cron_time_range hours_str, parse_cron_time_range minutes_str with
  | some hours, some minutes =>
    hours.flatMap (fun hour => minutes.map (fun minute => (hour, minute)))
  | _, _ => [(0, 0)]

/-- Models `convert_utc_to_mst(hour, minute)` for in-range clock inputs:
`datetime(2025, 1, 1, hour, minute, tzinfo=UTC).astimezone(US/Mountain)`.
On the fixed reference date 2025-01-01, US/Mountain observes MST = UTC-7,
so the instant is shifted 420 minutes earlier and read back as a clock
time, wrapping across the day boundary. -/
def convert_utc_to_mst (hour minute : Nat) : Nat × Nat :=
  let t := (hour * 60 + minute + 1440 - 420) % 1440
  (t / 60, t % 60)

/-- Minute rendered as Python `f"{minute:02d}"` (two digits, zero-padded,
for the 0–99 range actually reachable here). -/
def padMinute (minute : Int) : String :=
  if 0 ≤ minute ∧ minute < 10 then "0" ++ toString minute else toString minute

/-- Models `format_time_12hour(hour, minute)`: 12-hour clock string with
an AM/PM suffix decided on the original 24-hour value. -/
def format_time_12hour (hour minute : Int) : String :=
  let period := if hour < 12 then "AM" else "PM"
  let display_hour := if hour ≤ 12 then hour else hour - 12
  let display_hour := if display_hour = 0 then (12 : Int) else display_hour
  toString display_hour ++ ":" ++ padMinute minute ++ " " ++ period

/-- The recurring test of `categorize_jobs`: more than 8 daily occurrences,
or a `/` in the raw `hours` or `minutes` text (absent fields read as `''`). -/
def is_recurring (job : Job) : Bool :=
  decide (8 < (parse_job_schedule job).length)
    || (job.hours.getD "").data.contains '/'
    || (job.minutes.getD "").data.contains '/'

/-- Models `categorize_jobs(df)`: one pass over the jobs appending each to
the recurring or the scheduled list. -/
def categorize_jobs : List Job → List Job × List Job
  | [] => ([], [])
  | j :: rest =>
    let p := categorize_jobs rest
    if is_recurring j then (j :: p.1, p.2) else (p.1, j :: p.2)

/-- Models Python `str.lower()` on the ASCII text this program handles. -/
def strLower (s : String) : String := strOfChars (s.data.map Char.toLower)

/-- Models Python `str.capitalize()`: first character upper-cased, the
rest lower-cased. -/
def strCapitalize (s : String) : String :=
  match s.data with
  | [] => s
  | c :: rest => strOfChars (c.toUpper :: rest.map Char.toLower)

/-- Models Python `s.startswith(pre)`. -/
def strStartsWith (s pre : String) : Bool := pre.data.isPrefixOf s.data

/-- Models Python `s[-2:]` for the two-character slice used on formatter
output. -/
def takeRight2 (s : String) : String := strOfChars ((s.data.reverse.take 2).reverse)

/-- Models Python `s.split(':')[0]`. -/
def beforeColon (s : String) : String := strOfChars ((splitOnChar ':' s.data).headD [])

/-- The hour-endpoint abbreviation built in the describer:
`format_time_12hour(h, m).split(':')[0] + format_time_12hour(h, m)[-2:]`,
i.e. the hour digits followed directly by the AM/PM suffix. -/
def hour12Abbrev (h m : Int) : String :=
  beforeColon (format_time_12hour h m) ++ takeRight2 (format_time_12hour h m)

/-- Models `parse_recurring_pattern_description(job)`: derive an hour
clause and a minute clause from the raw field texts and combine them. -/
def parse_recurring_pattern_description (job : Job) : String :=
  let hours_str := job.hours.getD "*"
  let minutes_str := job.minutes.getD "0"
  let hour_desc :=
    if hours_str = "*" || hours_str = "0-23" then "all day"
    else if hours_str.data.contains '-' then
      let base_part :=
        if hours_str.data.contains '/' then
          strOfChars ((splitOnChar '/' hours_str.data).headD [])
        else hours_str
      match splitOnChar '-' base_part.data with
      | [p1, p2] =>
        match parseIntChars p1, parseIntChars p2 with
        | some start_hour, some end_hour =>
          "from " ++ hour12Abbrev start_hour 0 ++ " to " ++ hour12Abbrev end_hour 59
        | _, _ => "during hours " ++ hours_str
      | _ => "during hours " ++ hours_str
    else
      match parseIntChars hours_str.data with
      | some hour_val => "at " ++ toString hour_val ++ " o\x27clock"
      | none => "during hours " ++ hours_str
  let minute_desc :=
    if minutes_str = "*" then "every minute"
    else if minutes_str.data.contains '/' then
      match splitOnChar '/' minutes_str.data with
      | [_, intervalStr] =>
        match parseIntChars intervalStr with
        | some interval =>
          if interval = 1 then "once a minute"
          else if interval = 2 then "once every two minutes"
          else if interval = 5 then "once every five minutes"
          else if interval = 10 then "once every ten minutes"
          else if interval = 15 then "once every fifteen minutes"
          else if interval = 30 then "once every thirty minutes"
          else if interval = 60 then "once an hour"
          else "once every " ++ toString interval ++ " minutes"
        | none => "with pattern " ++ minutes_str
      | _ => "with pattern " ++ minutes_str
    else if minutes_str.data.contains '-' then
      "every minute during " ++ minutes_str
    else if minutes_str.data.contains ',' then
      let mins := splitOnChar ',' minutes_str.data
      if mins.length ≤ 3 then "at minutes " ++ minutes_str
      else "at " ++ toString mins.length ++ " specific times"
    else
      match parseIntChars minutes_str.data with
      | some min_val => "at minute " ++ toString min_val
      | none => "with minute pattern " ++ minutes_str
  if hour_desc = "all day" then
    if strStartsWith minute_desc "once a minute" then "Once a minute"
    else if strStartsWith minute_desc "once every" then strCapitalize minute_desc
    else strCapitalize minute_desc ++ " " ++ hour_desc
  else
    if strStartsWith minute_desc "once a minute" then "Once a minute " ++ hour_desc
    else if strStartsWith minute_desc "once every" then
      strCapitalize minute_desc ++ " " ++ hour_desc
    else strCapitalize minute_desc ++ " " ++ hour_desc

/-- Maximal runs of decimal digits, as numbers, in text order: models
`re.findall(r'\d+', pattern)` followed by `int` on each match. -/
def findNumbersAux : Option Nat → List Char → List Nat
  | acc, [] => match acc with | none => [] | some n => [n]
  | acc, c :: rest =>
    if c.isDigit then
      findNumbersAux (some ((acc.getD 0) * 10 + (c.toNat - 48))) rest
    else
      match acc with
      | none => findNumbersAux none rest
      | some n => n :: findNumbersAux none rest

/-- All digit-run numbers of a string, leftmost first. -/
def findNumbers (s : String) : List Nat := findNumbersAux none s.data

/-- Models `get_frequency_score(pattern)`: the sort key used to order
recurring-pattern groups. Python's division `1000 / int(numbers[0])` is
modelled exactly in `ℚ`, and the `ZeroDivisionError` it raises when the
first digit run is 0 is modelled as `none`. -/
def get_frequency_score (pattern : String) : Option ℚ :=
  let low := (strLower pattern).data
  if containsSub "once a minute".data low then some 1000
  else if containsSub "once every two minutes".data low then some 500
  else if containsSub "once every".data low && containsSub "minutes".data low then
    match findNumbers pattern with
    | [] => some 100
    | n :: _ => if n = 0 then none else some (1000 / (n : ℚ))
  else if containsSub "once every".data low && containsSub "hour".data low then some 10
  else some 1

/-- Models `sorted(pattern_groups.keys(), key=get_frequency_score,
reverse=True)`: a stable sort placing higher-scoring patterns first.
`sorted` evaluates the key on every element, so if scoring any pattern
raises, the whole call raises (`none`); otherwise the keys are all
defined and the comparison reads them directly. -/
def sorted_patterns (patterns : List String) : Option (List String) :=
  if patterns.all (fun p => (get_frequency_score p).isSome) then
    some (patterns.mergeSort (fun a b =>
      decide ((get_frequency_score b).getD 0 ≤ (get_frequency_score a).getD 0)))
  else none

/-- Models `is_job_enabled(job)`: `job.get('enabled', False)` normalized
to a boolean (text compares lower-cased against `'true'`). -/
def is_job_enabled (job : Job) : Bool :=
  match job.enabled with
  | none => false
  | some (.strVal s) => strLower s == "true"
  | some (.boolVal b) => b

/-- If either field of a job fails to parse, the expander returns the
fallback occurrence list. -/
theorem parse_job_schedule_fallback (job : Job)
    (hfail : parse_cron_time_range (job.hours.getD "*") = none ∨
      parse_cron_time_range (job.minutes.getD "0") = none) :
    parse_job_schedule job = [(0, 0)] := by
  simp only [parse_job_schedule]
  rcases hfail with h | h
  · rw [h]
  · rw [h]
    cases parse_cron_time_range (job.hours.getD "*") <;> rfl

/-- C1: evaluating the Field Parser at the failing input `"*"`: it returns
the 60-element list 0..59 for every field — including hour fields — because
the source tests `'hour' in str(time_str)` against the field text itself
(always false for `"*"`); no caller-passed domain bound exists, so an hour
`"*"` field does not receive 24 elements. -/
theorem c1_star_parses_to_sixty :
    parse_cron_time_range "*" = some ((List.range 60).map (fun n => (n : Int))) ∧
    ((parse_cron_time_range "*").getD []).length = 60 ∧
    ((parse_cron_time_range "*").getD []).length ≠ 24 := by
  refine ⟨by decide, by decide, by decide⟩

/-- C6: the Timezone Converter is total over in-range clock pairs, lands in
the 24-hour clock, equals the single fixed offset UTC-7 applied uniformly
(adding the 420 minutes back modulo one day recovers the input), and is
injective over the 1440 pairs of a day. -/
theorem c6_convert_utc_to_mst_spec (h₁ m₁ h₂ m₂ : Nat)
    (hh₁ : h₁ < 24) (hm₁ : m₁ < 60) (hh₂ : h₂ < 24) (hm₂ : m₂ < 60) :
    ((convert_utc_to_mst h₁ m₁).1 < 24 ∧ (convert_utc_to_mst h₁ m₁).2 < 60) ∧
    ((convert_utc_to_mst h₁ m₁).1 * 60 + (convert_utc_to_mst h₁ m₁).2 + 420) % 1440
      = h₁ * 60 + m₁ ∧
    (convert_utc_to_mst h₁ m₁ = convert_utc_to_mst h₂ m₂ → h₁ = h₂ ∧ m₁ = m₂) := by
  simp only [convert_utc_to_mst, Prod.mk.injEq]
  refine ⟨⟨by omega, by omega⟩, by omega, fun heq => ?_⟩
  obtain ⟨e1, e2⟩ := heq
  omega

/-- C6 witness: 23:45 UTC wraps across the day boundary to 16:45 MST. -/
theorem c6_convert_utc_to_mst_witness :
    convert_utc_to_mst 23 45 = (16, 45) ∧
    ((convert_utc_to_mst 23 45).1 * 60 + (convert_utc_to_mst 23 45).2 + 420) % 1440
      = 23 * 60 + 45 :=
  ⟨by decide,
    (c6_convert_utc_to_mst_spec 23 45 0 0 (by decide) (by decide) (by decide)
      (by decide)).2.1⟩

/-- `padMinute` on a non-negative minute is the plain two-digit zero-pad. -/
theorem padMinute_of_nonneg (m : Int) (hm : 0 ≤ m) :
    padMinute m = if m < 10 then "0" ++ toString m else toString m := by
  simp only [padMinute]
  by_cases h10 : m < 10
  · rw [if_pos ⟨hm, h10⟩, if_pos h10]
  · rw [if_neg (fun hc => h10 hc.2), if_neg h10]

/-- C7: over the 24-hour clock the Twelve-Hour Formatter maps hour 0 to
"12", keeps hours 1–12, maps 13–23 to hour−12, zero-pads the minute to two
digits, and chooses AM/PM on the original 24-hour value; with the three
concrete evaluations the spec lists. -/
theorem c7_format_time_12hour_spec :
    (∀ h m : Int, 0 ≤ h → h < 24 → 0 ≤ m → m < 60 →
      format_time_12hour h m =
        (if h = 0 then "12" else if h ≤ 12 then toString h else toString (h - 12))
          ++ ":" ++ (if m < 10 then "0" ++ toString m else toString m)
          ++ " " ++ (if h < 12 then "AM" else "PM")) ∧
    format_time_12hour 0 0 = "12:00 AM" ∧
    format_time_12hour 13 5 = "1:05 PM" ∧
    format_time_12hour 23 59 = "11:59 PM" := by
  refine ⟨?_, by decide, by decide, by decide⟩
  intro h m h0 h24 m0 m60
  simp only [format_time_12hour, padMinute_of_nonneg m m0]
  interval_cases h <;> rfl

/-- C7 witness: the general statement instantiated at 9:05. -/
theorem c7_format_time_12hour_witness :
    format_time_12hour 9 5 = "9" ++ ":" ++ ("0" ++ toString (5 : Int)) ++ " " ++ "AM" := by
  have := c7_format_time_12hour_spec.1 9 5 (by decide) (by decide) (by decide) (by decide)
  simpa using this

/-- C10: `is_job_enabled` is total over the three shapes of the `enabled`
attribute: an absent field counts as disabled, a textual field is enabled
exactly when it lower-cases to "true", and a boolean field is returned
as-is. -/
theorem c10_is_job_enabled_spec :
    (∀ hrs mins, is_job_enabled { hours := hrs, minutes := mins, enabled := none } = false) ∧
    (∀ hrs mins s, is_job_enabled { hours := hrs, minutes := mins, enabled := some (.strVal s) }
      = (strLower s == "true")) ∧
    (∀ hrs mins b, is_job_enabled { hours := hrs, minutes := mins, enabled := some (.boolVal b) }
      = b) :=
  ⟨fun _ _ => rfl, fun _ _ _ => rfl, fun _ _ _ => rfl⟩

/-- C3: the Occurrence Expander never fails: whenever parsing of either
field fails (for example `hours="abc"`), it returns exactly the single
fallback occurrence `[(0, 0)]`. -/
theorem c3_expander_never_fails (job : Job)
    (hfail : parse_cron_time_range (job.hours.getD "*") = none ∨
      parse_cron_time_range (job.minutes.getD "0") = none) :
    parse_job_schedule job = [(0, 0)] :=
  parse_job_schedule_fallback job hfail

/-- C3 witness: `hours="abc"` fails to parse and the expander yields the
fallback. -/
theorem c3_expander_never_fails_witness :
    parse_cron_time_range "abc" = none ∧
    parse_job_schedule { hours := some "abc", minutes := some "0", enabled := none }
      = [(0, 0)] :=
  ⟨by decide,
    c3_expander_never_fails { hours := some "abc", minutes := some "0", enabled := none }
      (Or.inl (by decide))⟩

/-- C5: when both fields parse, the expander returns exactly the
cross-product of the parsed hours and minutes, so the occurrence count is
the product of the two set sizes. -/
theorem c5_expander_cross_product (job : Job) (hs ms : List Int)
    (hh : parse_cron_time_range (job.hours.getD "*") = some hs)
    (hm : parse_cron_time_range (job.minutes.getD "0") = some ms) :
    parse_job_schedule job = hs ×ˢ ms ∧
    (parse_job_schedule job).length = hs.length * ms.length := by
  have h1 : parse_job_schedule job = hs ×ˢ ms := by
    simp only [parse_job_schedule]
    rw [hh, hm]
    rfl
  exact ⟨h1, by rw [h1, List.length_product]⟩

/-- C5 witness: `hours="15-22"`, `minutes="0,30"` gives the 8 × 2 grid. -/
theorem c5_expander_cross_product_witness :
    (parse_job_schedule { hours := some "15-22", minutes := some "0,30", enabled := none }).length
      = 8 * 2 := by
  have := c5_expander_cross_product
    { hours := some "15-22", minutes := some "0,30", enabled := none }
    [15, 16, 17, 18, 19, 20, 21, 22] [0, 30] (by decide) (by decide)
  rw [this.2]
  rfl

/-- The classifier's recursion is exactly a pair of filters over the input. -/
theorem categorize_jobs_eq_filter (jobs : List Job) :
    categorize_jobs jobs =
      (jobs.filter is_recurring, jobs.filter (fun j => !is_recurring j)) := by
  induction jobs with
  | nil => rfl
  | cons j rest ih =>
    simp only [categorize_jobs, ih, List.filter_cons]
    cases hj : is_recurring j <;> simp

/-- The classifier's boolean test, read as the spec's disjunction. -/
theorem is_recurring_iff (j : Job) :
    is_recurring j = true ↔
      (8 < (parse_job_schedule j).length ∨
        (j.hours.getD "").data.contains '/' = true ∨
        (j.minutes.getD "").data.contains '/' = true) := by
  simp [is_recurring, Bool.or_eq_true, decide_eq_true_eq, or_assoc]

/-- C2: `categorize_jobs` partitions the jobs: a job lands in the Recurring
list iff its occurrence count exceeds 8 or a raw field contains a slash,
and otherwise in the Scheduled list; both lists preserve input order
(sublists of the input) and their lengths sum to the total. -/
theorem c2_categorize_jobs_partition (jobs : List Job) :
    (categorize_jobs jobs).1.Sublist jobs ∧
    (categorize_jobs jobs).2.Sublist jobs ∧
    (categorize_jobs jobs).1.length + (categorize_jobs jobs).2.length = jobs.length ∧
    ∀ j, j ∈ jobs →
      ((j ∈ (categorize_jobs jobs).1 ↔
          (8 < (parse_job_schedule j).length ∨
            (j.hours.getD "").data.contains '/' = true ∨
            (j.minutes.getD "").data.contains '/' = true)) ∧
        (j ∈ (categorize_jobs jobs).2 ↔
          ¬(8 < (parse_job_schedule j).length ∨
            (j.hours.getD "").data.contains '/' = true ∨
            (j.minutes.getD "").data.contains '/' = true))) := by
  rw [categorize_jobs_eq_filter]
  refine ⟨List.filter_sublist _, List.filter_sublist _,
    (List.length_eq_length_filter_add is_recurring).symm, ?_⟩
  intro j hj
  constructor
  · rw [List.mem_filter, ← is_recurring_iff j]
    simp [hj]
  · rw [List.mem_filter, ← is_recurring_iff j]
    simp [hj]

/-- C2 witness: a two-job collection, one recurring by the slash rule, one
scheduled. -/
theorem c2_categorize_jobs_partition_witness :
    ((categorize_jobs [{ hours := some "0-23/12", minutes := some "0", enabled := none },
        { hours := some "9", minutes := some "0", enabled := none }]).1.length
      + (categorize_jobs [{ hours := some "0-23/12", minutes := some "0", enabled := none },
        { hours := some "9", minutes := some "0", enabled := none }]).2.length = 2) ∧
    ({ hours := some "9", minutes := some "0", enabled := none } : Job)
      ∈ (categorize_jobs [{ hours := some "0-23/12", minutes := some "0", enabled := none },
        { hours := some "9", minutes := some "0", enabled := none }]).2 :=
  ⟨(c2_categorize_jobs_partition _).2.2.1,
    (((c2_categorize_jobs_partition _).2.2.2 _ (by decide)).2).mpr (by decide)⟩

/-- C9 counterexample: a bare value with a step of 0 (`"5/0"`) is NOT a
parse failure — the source ignores the step when the base has no dash and
returns the singleton — refuting "for every field text with a step of 0,
parsing is a failure". -/
theorem c9_step_zero_counterexample :
    parse_cron_time_range "5/0" = some [5] ∧ parse_cron_time_range "5/0" ≠ none := by
  refine ⟨by decide, by decide⟩

/-- C9 (amended): an inverted dash range (no slash) parses to the empty
set without wrapping or failing; a dash-range-with-step text whose step is
0 is a parse failure that the Occurrence Expander converts to the fallback
occurrence; and a bare value with step 0 parses to the singleton of the
value. -/
theorem c9_inverted_range_and_step_zero :
    (∀ (s : String) (x y : List Char) (a b : Int),
      s ≠ "*" → s.data.contains '/' = false → s.data.contains '-' = true →
      splitOnChar '-' s.data = [x, y] →
      parseIntChars x = some a → parseIntChars y = some b → b < a →
      parse_cron_time_range s = some []) ∧
    (∀ (s : String) (base stepStr : List Char),
      s ≠ "*" → s.data.contains '/' = true →
      splitOnChar '/' s.data = [base, stepStr] →
      parseIntChars stepStr = some 0 →
      base.contains '-' = true →
      parse_cron_time_range s = none ∧
      ∀ job : Job, job.hours = some s → parse_job_schedule job = [(0, 0)]) ∧
    (∀ (s : String) (v stepStr : List Char) (n : Int),
      s ≠ "*" → s.data.contains '/' = true →
      splitOnChar '/' s.data = [v, stepStr] →
      parseIntChars stepStr = some 0 →
      v.contains '-' = false →
      parseIntChars v = some n →
      parse_cron_time_range s = some [n]) := by
  refine ⟨?_, ?_, ?_⟩
  · intro s x y a b hne hslash hdash hsplit hx hy hba
    simp only [parse_cron_time_range, if_neg hne, hslash, hdash]
    simp only [Bool.false_eq_true, if_false, if_true]
    rw [hsplit]
    simp only [hx, hy]
    simp only [pythonRange, if_neg (by omega : ¬(1 : Int) = 0)]
    rw [if_pos (by omega : (0 : Int) < 1), if_neg (by omega : ¬a < b + 1)]
  · intro s base stepStr hne hslash hsplit hstep hdash
    have hparse : parse_cron_time_range s = none := by
      simp only [parse_cron_time_range, if_neg hne, hslash, if_true]
      rw [hsplit]
      simp only [hstep, hdash, if_true]
      cases h2 : splitOnChar '-' base with
      | nil => rfl
      | cons s1 rest =>
        cases rest with
        | nil => rfl
        | cons s2 rest2 =>
          cases rest2 with
          | nil =>
            rcases h3 : parseIntChars s1 with _ | a <;>
              rcases h4 : parseIntChars s2 with _ | b <;>
              simp [h3, h4, pythonRange]
          | cons s3 rest3 => rfl
    refine ⟨hparse, fun job hjob => ?_⟩
    exact parse_job_schedule_fallback job (Or.inl (by rw [hjob]; exact hparse))
  · intro s v stepStr n hne hslash hsplit hstep hdash hv
    simp only [parse_cron_time_range, if_neg hne, hslash, if_true]
    rw [hsplit]
    simp only [hstep, hdash, Bool.false_eq_true, if_false, hv]
    rfl

/-- C9 witness: the amended statement applied at `"5-3"`, `"0-59/0"` and
`"7/0"`. -/
theorem c9_inverted_range_and_step_zero_witness :
    parse_cron_time_range "5-3" = some [] ∧
    parse_cron_time_range "0-59/0" = none ∧
    parse_job_schedule { hours := some "0-59/0", minutes := some "0", enabled := none }
      = [(0, 0)] ∧
    parse_cron_time_range "7/0" = some [7] := by
  refine ⟨?_, ?_, ?_, ?_⟩
  · exact c9_inverted_range_and_step_zero.1 "5-3" ['5'] ['3'] 5 3 (by decide) (by decide)
      (by decide) (by decide) (by decide) (by decide) (by decide)
  · exact (c9_inverted_range_and_step_zero.2.1 "0-59/0" "0-59".data ['0'] (by decide)
      (by decide) (by decide) (by decide) (by decide)).1
  · exact (c9_inverted_range_and_step_zero.2.1 "0-59/0" "0-59".data ['0'] (by decide)
      (by decide) (by decide) (by decide) (by decide)).2 _ rfl
  · exact c9_inverted_range_and_step_zero.2.2 "7/0" ['7'] ['0'] 7 (by decide) (by decide)
      (by decide) (by decide) (by decide) (by decide)

/-- C4 counterexample: for `hours="*"`, `minutes="*"` the Pattern Describer
returns "Every minute all day" — the minute clause for `"*"` is
"every minute", which does not start with "once a minute", so the
description never collapses to "Once a minute". -/
theorem c4_describer_counterexample :
    parse_recurring_pattern_description
        { hours := some "*", minutes := some "*", enabled := none }
      = "Every minute all day" ∧
    parse_recurring_pattern_description
        { hours := some "*", minutes := some "*", enabled := none }
      ≠ "Once a minute" := by
  refine ⟨by decide, by decide⟩

/-- C4 (amended): the Pattern Describer returns "Every minute all day" for
`hours="*"`, `minutes="*"`; "Once every thirty minutes" for `hours="*"`,
`minutes="0-59/30"`; and "At minute 0 from 9AM to 5PM" for `hours="9-17"`,
`minutes="0"` — the hour-range clause keeps only the hour digits and the
AM/PM suffix of each 12-hour formatter result, dropping the ":MM" part. -/
theorem c4_describer_values :
    parse_recurring_pattern_description
        { hours := some "*", minutes := some "*", enabled := none }
      = "Every minute all day" ∧
    parse_recurring_pattern_description
        { hours := some "*", minutes := some "0-59/30", enabled := none }
      = "Once every thirty minutes" ∧
    parse_recurring_pattern_description
        { hours := some "9-17", minutes := some "0", enabled := none }
      = "At minute 0 from " ++ hour12Abbrev 9 0 ++ " to " ++ hour12Abbrev 17 59 ∧
    hour12Abbrev 9 0 = "9AM" ∧ hour12Abbrev 17 59 = "5PM" := by
  refine ⟨by decide, by decide, by decide, by decide, by decide⟩

/-- C8 counterexample: the describer's own output "Once every thirty
minutes" (a "once every N minutes" description with N spelled out) scores
100 — neither `1000/30` nor 1 — because the score extracts digit runs and
the phrase has none. -/
theorem c8_score_counterexample :
    get_frequency_score "Once every thirty minutes" = some 100 ∧
    get_frequency_score "Once every thirty minutes" ≠ some (1000 / 30) ∧
    get_frequency_score "Once every thirty minutes" ≠ some 1 := by
  have h : get_frequency_score "Once every thirty minutes" = some 100 := by decide
  refine ⟨h, ?_, ?_⟩
  · rw [h]; simp only [ne_eq, Option.some.injEq]; norm_num
  · rw [h]; simp only [ne_eq, Option.some.injEq]; norm_num

/-- C8 (amended): the frequency score is 1000 for a description containing
"once a minute", 500 for one containing "once every two minutes", and for
any other description containing both "once every" and "minutes" it is
1000 divided by the first digit run when the text contains a nonzero digit
run, a raised ZeroDivisionError (modelled `none`) when the first digit run
is 0, and 100 when the text contains no digit at all; it is 10 for any
remaining "once every … hour" description and 1 for everything else; when
every group's score is defined, the groups are ordered by this score
descending. -/
theorem c8_frequency_score_spec :
    (∀ p : String,
      let low := (strLower p).data
      (containsSub "once a minute".data low = true →
        get_frequency_score p = some 1000) ∧
      (containsSub "once a minute".data low = false →
        containsSub "once every two minutes".data low = true →
        get_frequency_score p = some 500) ∧
      (containsSub "once a minute".data low = false →
        containsSub "once every two minutes".data low = false →
        containsSub "once every".data low = true →
        containsSub "minutes".data low = true →
        (∀ n rest, findNumbers p = n :: rest → n ≠ 0 →
          get_frequency_score p = some (1000 / (n : ℚ))) ∧
        (∀ rest, findNumbers p = 0 :: rest → get_frequency_score p = none) ∧
        (findNumbers p = [] → get_frequency_score p = some 100)) ∧
      (containsSub "once a minute".data low = false →
        containsSub "once every two minutes".data low = false →
        ¬(containsSub "once every".data low = true ∧
          containsSub "minutes".data low = true) →
        containsSub "once every".data low = true →
        containsSub "hour".data low = true →
        get_frequency_score p = some 10) ∧
      (containsSub "once a minute".data low = false →
        containsSub "once every two minutes".data low = false →
        ¬(containsSub "once every".data low = true ∧
          containsSub "minutes".data low = true) →
        ¬(containsSub "once every".data low = true ∧
          containsSub "hour".data low = true) →
        get_frequency_score p = some 1)) ∧
    ∀ (patterns : List String) (l : List String),
      sorted_patterns patterns = some l →
      l.Pairwise (fun a b => ∀ qa qb : ℚ,
        get_frequency_score a = some qa → get_frequency_score b = some qb →
        qb ≤ qa) := by
  constructor
  · intro p low
    refine ⟨fun h1 => ?_, fun h1 h2 => ?_,
      fun h1 h2 h3 h4 => ⟨fun n rest hn hn0 => ?_, fun rest hn => ?_, fun hn => ?_⟩,
      fun h1 h2 h3 h4 h5 => ?_, fun h1 h2 h3 h4 => ?_⟩
    · simp [get_frequency_score, h1]
    · simp [get_frequency_score, h1, h2]
    · simp [get_frequency_score, h1, h2, h3, h4, hn, hn0]
    · simp [get_frequency_score, h1, h2, h3, h4, hn]
    · simp [get_frequency_score, h1, h2, h3, h4, hn]
    · have h3' : ¬(containsSub "once every".data low && containsSub "minutes".data low) = true := by
        simp only [Bool.and_eq_true]; exact h3
      simp only [get_frequency_score, h1, h2, Bool.false_eq_true, if_false]
      rw [if_neg h3', if_pos (by simp [h4, h5])]
    · have h3' : ¬(containsSub "once every".data low && containsSub "minutes".data low) = true := by
        simp only [Bool.and_eq_true]; exact h3
      have h4' : ¬(containsSub "once every".data low && containsSub "hour".data low) = true := by
        simp only [Bool.and_eq_true]; exact h4
      simp only [get_frequency_score, h1, h2, Bool.false_eq_true, if_false]
      rw [if_neg h3', if_neg h4']
  · intro patterns l hl
    simp only [sorted_patterns] at hl
    by_cases hall : patterns.all (fun p => (get_frequency_score p).isSome) = true
    · rw [if_pos hall] at hl
      have hleq := Option.some.inj hl
      subst hleq
      have hs := @List.sorted_mergeSort String
        (fun a b : String =>
          decide ((get_frequency_score b).getD 0 ≤ (get_frequency_score a).getD 0))
        (fun a b c hab hbc => by
          simp only [decide_eq_true_eq] at *
          exact le_trans hbc hab)
        (fun a b => by
          simp only [Bool.or_eq_true, decide_eq_true_eq]
          exact le_total ((get_frequency_score b).getD 0) ((get_frequency_score a).getD 0))
        patterns
      refine hs.imp (fun h qa qb ha hb => ?_)
      simp only [decide_eq_true_eq] at h
      rw [ha, hb] at h
      simpa using h
    · rw [if_neg hall] at hl
      exact absurd hl (by simp)

/-- C8 witness: the score spec applied at concrete descriptions — 1000,
1000/45, and a raised score for a zero digit run — and the group ordering
applied at a concrete defined-score pattern list. -/
theorem c8_frequency_score_witness :
    get_frequency_score "Once a minute" = some 1000 ∧
    get_frequency_score "Once every 45 minutes" = some (1000 / 45) ∧
    get_frequency_score "Once every 0 minutes" = none ∧
    (["Once a minute"] : List String).Pairwise (fun a b => ∀ qa qb : ℚ,
      get_frequency_score a = some qa → get_frequency_score b = some qb →
      qb ≤ qa) :=
  ⟨(c8_frequency_score_spec.1 "Once a minute").1 (by decide),
    ((c8_frequency_score_spec.1 "Once every 45 minutes").2.2.1 (by decide) (by decide)
      (by decide) (by decide)).1 45 [] (by decide) (by decide),
    ((c8_frequency_score_spec.1 "Once every 0 minutes").2.2.1 (by decide) (by decide)
      (by decide) (by decide)).2.1 [] (by decide),
    c8_frequency_score_spec.2 ["Once a minute"] ["Once a minute"] (by
      have hall : (["Once a minute"] : List String).all
          (fun p => (get_frequency_score p).isSome) = true := by decide
      simp [sorted_patterns, hall])⟩
